import Mathlib

/-!
Shallow embedding of the pagination core of the go-fastly client library:
the `ListServiceAuthorizationsPaginator` (src/fastly/service_authorization.go)
and the recursive WAF rule-status page fetcher (src/fastly/waf.go).

Go `int` values are modelled as `Int` (the page arithmetic here never
approaches 64-bit overflow); strings as Lean `String` / `List Char`.
The HTTP collaborator is modelled as an explicit response value passed to
each fetch, and Go panics are modelled as a distinct outcome constructor.
-/

set_option autoImplicit false

namespace GoFastly

/-! ## Models of the Go standard library pieces the source calls -/

/-- Model of `strconv.Itoa` (decimal rendering of an int); Lean's decimal
`toString` on `Int` produces the same strings. -/
def itoa (n : Int) : String := toString n

/-- Characters before the first occurrence of `sep`; the whole list when
`sep` is absent. Models the first component of Go `strings.Cut`. -/
def takeUntil (sep : Char) : List Char → List Char
  | [] => []
  | c :: cs => if c = sep then [] else c :: takeUntil sep cs

/-- Characters after the first occurrence of `sep`; `[]` when `sep` is
absent. Models the second component of Go `strings.Cut`. -/
def dropThrough (sep : Char) : List Char → List Char
  | [] => []
  | c :: cs => if c = sep then cs else dropThrough sep cs

/-- Split a character list on a separator, like Go's repeated
`strings.Cut(query, "&")` loop: `"" ↦ [[]]`, `"a&b" ↦ [[a],[b]]`. -/
def splitOnChar (sep : Char) : List Char → List (List Char)
  | [] => [[]]
  | c :: cs =>
    if c = sep then [] :: splitOnChar sep cs
    else
      match splitOnChar sep cs with
      | [] => [[c]]
      | g :: gs => (c :: g) :: gs

/-- Hex digit value, as used by `net/url`'s percent-escape decoding. -/
def unhex (c : Char) : Option Nat :=
  if '0' ≤ c ∧ c ≤ '9' then some (c.toNat - '0'.toNat)
  else if 'a' ≤ c ∧ c ≤ 'f' then some (c.toNat - 'a'.toNat + 10)
  else if 'A' ≤ c ∧ c ≤ 'F' then some (c.toNat - 'A'.toNat + 10)
  else none

/-- Model of Go `url.QueryUnescape` on a query component: `+` becomes a
space, `%XY` with two hex digits becomes the byte `0xXY`, any other byte
passes through; a `%` not followed by two hex digits is an error
(`none`). Decoded bytes are represented as characters of the same code. -/
def unescapeChars : List Char → Option (List Char)
  | [] => some []
  | '%' :: a :: b :: rest =>
    match unhex a, unhex b with
    | some x, some y => (unescapeChars rest).map (Char.ofNat (16 * x + y) :: ·)
    | _, _ => none
  | '%' :: _ => none
  | '+' :: rest => (unescapeChars rest).map (' ' :: ·)
  | c :: rest => (unescapeChars rest).map (c :: ·)

/-- Model of one iteration of Go `url.ParseQuery`'s loop on a `&`-separated
segment: a segment containing `;` is skipped (treated as an error and
dropped), an empty segment is skipped, otherwise it is cut at the first
`=` and both sides are query-unescaped (a failed unescape drops the
pair). -/
def parseQueryPair (seg : List Char) : Option (List Char × List Char) :=
  if seg.contains ';' then none
  else if seg.isEmpty then none
  else
    match unescapeChars (takeUntil '=' seg), unescapeChars (dropThrough '=' seg) with
    | some k, some v => some (k, v)
    | _, _ => none

/-- Values associated with `key` in a raw query string, in order: models
`u.Query()[key]` from `net/url` (the `Values` map entry for `key`). -/
def queryValues (rawQuery : List Char) (key : List Char) : List (List Char) :=
  (splitOnChar '&' rawQuery).filterMap fun seg =>
    match parseQueryPair seg with
    | some (k, v) => if k = key then some v else none
    | none => none

/-- Whether the string contains an ASCII control byte, the check
`net/url.Parse` performs up front (`stringContainsCTLByte`). -/
def containsCTLByte (s : List Char) : Bool :=
  s.any fun c => c.toNat < 32 ∨ c.toNat = 127

/-- Model of `url.Parse` restricted to what the source consumes from the
result: the `RawQuery` component. The fragment is cut at the first `#`,
the raw query is everything after the first `?` of the remainder. Of
`url.Parse`'s failure modes, the control-character check is modelled
(rarer scheme/host syntax failures are not); `none` models
`url.Parse` returning a nil `*URL` together with an error. -/
def urlParse (l : List Char) : Option (List Char) :=
  if containsCTLByte l then none
  else some (dropThrough '?' (takeUntil '#' l))

/-- Model of `strconv.Atoi`: returns the parsed value and an ok flag
(`false` models a non-nil error). A non-numeric string yields `(0, false)`
(`ErrSyntax`); a value outside the 64-bit range yields the clamped cutoff
and `false` (`ErrRange`). -/
def goAtoi (s : List Char) : Int × Bool :=
  let signed : Bool × List Char :=
    match s with
    | '-' :: rest => (true, rest)
    | '+' :: rest => (false, rest)
    | _ => (false, s)
  let neg := signed.1
  let ds := signed.2
  if ds.isEmpty ∨ ¬ ds.all (fun c => '0' ≤ c ∧ c ≤ '9') then (0, false)
  else
    let m : Nat := ds.foldl (fun acc c => acc * 10 + (c.toNat - '0'.toNat)) 0
    let v : Int := if neg then -(m : Int) else (m : Int)
    if v > 2 ^ 63 - 1 then (2 ^ 63 - 1, false)
    else if v < -(2 ^ 63) then (-(2 ^ 63), false)
    else (v, true)

/-! ## The service-authorization paginator -/

/-- ListServiceAuthorizationsInput is used as input to the
ListServiceAuthorizations function (fields `PerPage`, `Page`). -/
structure ListServiceAuthorizationsInput where
  PerPage : Int
  Page : Int
  deriving Repr, DecidableEq

/-- Paginator state, with the Go struct's fields (`consumed`,
`CurrentPage`, `NextPage`, `LastPage`); the `options` field holds the
input the paginator was constructed with, standing for the Go struct's
`options *ListServiceAuthorizationsInput` pointer (the `client` pointer
has no counterpart: the HTTP collaborator is passed explicitly to each
fetch). Go zero values are `false` / `0`. -/
structure ListServiceAuthorizationsPaginator where
  consumed : Bool
  CurrentPage : Int
  NextPage : Int
  LastPage : Int
  options : ListServiceAuthorizationsInput
  deriving Repr, DecidableEq

/-- Remaining returns the remaining page count:
`0` when `p.LastPage == 0`, else `p.LastPage - p.CurrentPage`. -/
def ListServiceAuthorizationsPaginator.Remaining
    (p : ListServiceAuthorizationsPaginator) : Int :=
  if p.LastPage = 0 then 0 else p.LastPage - p.CurrentPage

/-- HasNext returns a boolean indicating whether more pages are available:
`!p.consumed || p.Remaining() != 0`. -/
def ListServiceAuthorizationsPaginator.HasNext
    (p : ListServiceAuthorizationsPaginator) : Bool :=
  !p.consumed || p.Remaining != 0

/-- NewListServiceAuthorizationsPaginator returns a new paginator: only
`client` and `options` are set, every cursor field is at its Go zero
value. -/
def NewListServiceAuthorizationsPaginator
    (i : ListServiceAuthorizationsInput) : ListServiceAuthorizationsPaginator :=
  { consumed := false, CurrentPage := 0, NextPage := 0, LastPage := 0, options := i }

/-- Pagination links and decoded items of one response body. An item is
`some id` for an element that type-asserts to `*ServiceAuthorization`
(identified here by an opaque number) and `none` for an element of an
unexpected dynamic type. -/
structure ResponseInfo where
  next : String
  last : String
  items : List (Option Nat)
  deriving Repr, DecidableEq

/-- Outcome of the HTTP `Get` plus the two body decodes, i.e. everything
the environment decides: transport failure (line 247), `getResponseInfo`
failure (line 255), `jsonapi.UnmarshalManyPayload` failure (line 260), or
a decoded payload. -/
inductive GetResponse where
  | transportError
  | infoError
  | unmarshalError
  | payload (info : ResponseInfo)
  deriving Repr, DecidableEq

/-- The error taxonomy of `listServiceAuthorizationsWithPage`'s `return
nil, err` paths. -/
inductive FetchError where
  | transport
  | responseInfo
  | unmarshal
  | typeAssert
  deriving Repr, DecidableEq

/-- A Go runtime panic reason in the link-parsing block: calling
`u.Query()` on the nil `*URL` left by a failed `url.Parse`, or indexing
`query["page[number]"][0]` when that key has no values. -/
inductive PanicReason where
  | nilDeref
  | indexOutOfRange
  deriving Repr, DecidableEq

/-- How one `GetNext` call ends: decoded items returned with a nil error,
an error return, or a runtime panic. -/
inductive FetchResult where
  | ok (items : List Nat)
  | error (e : FetchError)
  | panic (r : PanicReason)
  deriving Repr, DecidableEq

/-- The two query parameters the fetch emits in its `RequestOptions`:
`page[size]` and `page[number]` (both rendered with `strconv.Itoa`). -/
structure EmittedRequest where
  pageSize : String
  pageNumber : String
  deriving Repr, DecidableEq

/-- Lines 217–223: `perPage` is `maxPerPage = 100` when `i.PerPage <= 0`,
else `i.PerPage` itself. -/
def effectivePerPage (i : ListServiceAuthorizationsInput) : Int :=
  if i.PerPage ≤ 0 then 100 else i.PerPage

/-- Lines 226–235: the value written into `p.CurrentPage` before the
request is issued: `1` when no page is specified and this paginator has
never advanced (`i.Page <= 0 && p.CurrentPage == 0`); else `i.Page` on a
not-yet-consumed paginator; else `p.CurrentPage + 1`. -/
def nextCurrentPage (i : ListServiceAuthorizationsInput)
    (p : ListServiceAuthorizationsPaginator) : Int :=
  if i.Page ≤ 0 ∧ p.CurrentPage = 0 then 1
  else if p.consumed = false then i.Page
  else p.CurrentPage + 1

/-- Lines 274–278 (and 279–283): parse a pagination link and extract the
first `page[number]` value with `strconv.Atoi`, swallowing the `Atoi`
error but keeping its value. `url.Parse` failure leaves a nil `*URL`, so
`u.Query()` panics; a missing `page[number]` key makes
`query["page[number]"][0]` panic with an index out of range. -/
def linkPageNumber (l : String) : Except PanicReason Int :=
  match urlParse l.toList with
  | none => .error .nilDeref
  | some rawQuery =>
    match queryValues rawQuery "page[number]".toList with
    | [] => .error .indexOutOfRange
    | v :: _ => .ok (goAtoi v).1

/-- Line 274–278 as a state step: when the `next` link is non-empty, parse
it and store the extracted number in `p.NextPage` (the swallowed `Atoi`
error means the parsed value is stored even when it is `Atoi`'s
error-case `0`); a panic aborts. -/
def applyNextLink (info : ResponseInfo) (p : ListServiceAuthorizationsPaginator) :
    Except PanicReason ListServiceAuthorizationsPaginator :=
  if info.next = "" then .ok p
  else (linkPageNumber info.next).map fun n => { p with NextPage := n }

/-- Lines 279–283: same step for the `last` link and `p.LastPage`. -/
def applyLastLink (info : ResponseInfo) (p : ListServiceAuthorizationsPaginator) :
    Except PanicReason ListServiceAuthorizationsPaginator :=
  if info.last = "" then .ok p
  else (linkPageNumber info.last).map fun n => { p with LastPage := n }

/-- Lines 265–272: convert the decoded interface slice, failing on the
first element whose type assertion fails. -/
def convertItems : List (Option Nat) → Except Unit (List Nat)
  | [] => .ok []
  | none :: _ => .error ()
  | some x :: rest => (convertItems rest).map (x :: ·)

/-- listServiceAuthorizationsWithPage, as a transition on the paginator
(which Go mutates through a pointer, so the returned paginator is the
state the caller's `*ListServiceAuthorizationsPaginator` is left in on
every outcome, error and panic included). The environment's behaviour for
the single `c.Get` of this call is the `resp` argument. Returns the
paginator state, the emitted query parameters, and the call's outcome. -/
def listServiceAuthorizationsWithPage (i : ListServiceAuthorizationsInput)
    (p : ListServiceAuthorizationsPaginator) (resp : GetResponse) :
    ListServiceAuthorizationsPaginator × EmittedRequest × FetchResult :=
  let perPage := effectivePerPage i
  let p1 := { p with CurrentPage := nextCurrentPage i p }
  let req : EmittedRequest := { pageSize := itoa perPage, pageNumber := itoa p1.CurrentPage }
  match resp with
  | .transportError => (p1, req, .error .transport)
  | .infoError => (p1, req, .error .responseInfo)
  | .unmarshalError => (p1, req, .error .unmarshal)
  | .payload info =>
    match convertItems info.items with
    | .error _ => (p1, req, .error .typeAssert)
    | .ok s =>
      match applyNextLink info p1 with
      | .error reason => (p1, req, .panic reason)
      | .ok p2 =>
        match applyLastLink info p2 with
        | .error reason => (p2, req, .panic reason)
        | .ok p3 => ({ p3 with consumed := true }, req, .ok s)

/-- GetNext retrieves data in the next page:
`p.client.listServiceAuthorizationsWithPage(p.options, p)`. -/
def ListServiceAuthorizationsPaginator.GetNext
    (p : ListServiceAuthorizationsPaginator) (resp : GetResponse) :
    ListServiceAuthorizationsPaginator × EmittedRequest × FetchResult :=
  listServiceAuthorizationsWithPage p.options p resp

/-! ## The WAF rule-status page fetcher (src/fastly/waf.go) -/

/-- GetWAFRuleStatusesInput: the two validated identifiers. The `Filters`
field only shapes the emitted query parameters and plays no role in the
control flow modelled here, so it is omitted. -/
structure GetWAFRuleStatusesInput where
  Service : String
  WAF : String
  deriving Repr, DecidableEq

/-- Error returns of `GetWAFRuleStatuses` / `fetchWAFRuleStatusesPage`:
the two input-validation errors, and the four per-page failure points
(`c.Get`, `getPages`, `jsonapi.UnmarshalManyPayload`, the type-assertion
loop). -/
inductive WAFError where
  | missingService
  | missingWAFID
  | transport
  | pages
  | unmarshal
  | typeAssert
  deriving Repr, DecidableEq

/-- What the environment returns for one page request in the WAF fetch
loop: a failure at one of the three decode points, or a payload carrying
the decoded elements (`some id` for an element that type-asserts to
`*receivedWAFRuleStatus`, `none` otherwise) and the `links.next` URL
(`""` when absent). -/
inductive WAFResponse where
  | transportError
  | pagesError
  | unmarshalError
  | payload (items : List (Option Nat)) (next : String)
  deriving Repr, DecidableEq

/-- The append loop of `fetchWAFRuleStatusesPage`: elements are appended
to `answer.Rules` one by one, and a failed type assertion returns an
error mid-loop, keeping the elements appended so far (the `true` flag). -/
def appendRules (answer : List Nat) : List (Option Nat) → List Nat × Bool
  | [] => (answer, false)
  | none :: _ => (answer, true)
  | some x :: rest => appendRules (answer ++ [x]) rest

/-- fetchWAFRuleStatusesPage as a transition on the accumulated rules
(`answer.Rules`, mutated through a pointer in Go, so deeper appends
survive an abandoned recursive call). The environment is the list of
responses the server gives to the successive page requests, consumed in
order (the Go code requests `pages.Next` as the next path; which response
that path produces is the environment's choice, modelled positionally;
requesting a page the environment has no response for is a transport
failure). The source discards the error of the recursive call for the
`next` link, which is the behaviour under test here. -/
def fetchWAFRuleStatusesPage : List WAFResponse → List Nat → List Nat × Option WAFError
  | [], answer => (answer, some .transport)
  | .transportError :: _, answer => (answer, some .transport)
  | .pagesError :: _, answer => (answer, some .pages)
  | .unmarshalError :: _, answer => (answer, some .unmarshal)
  | .payload items next :: rest, answer =>
    let appended := appendRules answer items
    if appended.2 then (appended.1, some .typeAssert)
    else if next = "" then (appended.1, none)
    else ((fetchWAFRuleStatusesPage rest appended.1).1, none)

/-- GetWAFRuleStatuses: validate the two identifiers, then run the page
fetch loop starting from an empty `Rules` slice. -/
def GetWAFRuleStatuses (i : GetWAFRuleStatusesInput) (responses : List WAFResponse) :
    List Nat × Option WAFError :=
  if i.Service = "" then ([], some .missingService)
  else if i.WAF = "" then ([], some .missingWAFID)
  else fetchWAFRuleStatusesPage responses []

/-! ## Shared helper lemmas -/

/-- Every `listServiceAuthorizationsWithPage` call, whatever its outcome,
emits the same request: `page[size]` from `effectivePerPage` and
`page[number]` from `nextCurrentPage`, both built before the `c.Get`. -/
theorem emittedRequest_spec (i : ListServiceAuthorizationsInput)
    (p : ListServiceAuthorizationsPaginator) (resp : GetResponse) :
    (listServiceAuthorizationsWithPage i p resp).2.1 =
      { pageSize := itoa (effectivePerPage i), pageNumber := itoa (nextCurrentPage i p) } := by
  cases resp with
  | transportError => rfl
  | infoError => rfl
  | unmarshalError => rfl
  | payload info =>
    simp only [listServiceAuthorizationsWithPage]
    split
    · rfl
    · split
      · rfl
      · split
        · rfl
        · rfl

/-- When a fetch on a payload response ends in `ok`, the paginator is left
consumed, on the page it just requested, with `LastPage` holding the
number extracted from a non-empty `last` link. -/
theorem getNext_ok_shape (p : ListServiceAuthorizationsPaginator) (info : ResponseInfo)
    (s : List Nat) (hok : (p.GetNext (.payload info)).2.2 = .ok s) :
    (p.GetNext (.payload info)).1.consumed = true ∧
    (p.GetNext (.payload info)).1.CurrentPage = nextCurrentPage p.options p ∧
    (info.last ≠ "" → ∀ n, linkPageNumber info.last = .ok n →
      (p.GetNext (.payload info)).1.LastPage = n) := by
  simp only [ListServiceAuthorizationsPaginator.GetNext, listServiceAuthorizationsWithPage] at *
  rcases hc : convertItems info.items with e | s'
  · simp [hc] at hok
  · simp only [hc] at hok ⊢
    rcases hn : applyNextLink info _ with r | p2
    · simp [hn] at hok
    · simp only [hn] at hok ⊢
      rcases hl : applyLastLink info p2 with r | p3
      · simp [hl] at hok
      · simp only [hl] at hok ⊢
        have hcur2 : p2.CurrentPage = nextCurrentPage p.options p := by
          rw [applyNextLink] at hn
          split at hn
          · rw [← Except.ok.inj hn]
          · rcases hmap : linkPageNumber info.next with r | m <;>
              rw [hmap] at hn <;> simp only [Except.map] at hn
            · exact absurd hn (by simp)
            · rw [← Except.ok.inj hn]
        have hcur3 : p3.CurrentPage = p2.CurrentPage ∧
            (info.last ≠ "" → ∀ n, linkPageNumber info.last = .ok n → p3.LastPage = n) := by
          rw [applyLastLink] at hl
          split at hl
          · rename_i hemp
            have h32 : p2 = p3 := Except.ok.inj hl
            subst h32
            exact ⟨rfl, fun hne _ _ => absurd hemp hne⟩
          · rcases hmap : linkPageNumber info.last with r | m
            · rw [hmap] at hl
              exact absurd hl (by simp [Except.map])
            · rw [hmap] at hl
              simp only [Except.map] at hl
              have h32 : ({ p2 with LastPage := m } : ListServiceAuthorizationsPaginator) = p3 :=
                Except.ok.inj hl
              subst h32
              refine ⟨rfl, ?_⟩
              intro hne n hn2
              exact Except.ok.inj hn2
        exact ⟨trivial, hcur3.1.trans hcur2, fun h n hn2 => hcur3.2 h n hn2⟩

/-- When a fetch returns an error, the paginator has already been moved to
the requested page (`CurrentPage` is overwritten before the request is
issued) but nothing else changed: `consumed` in particular is still the
old value, since the source sets it only after full success. -/
theorem getNext_error_state (p : ListServiceAuthorizationsPaginator) (resp : GetResponse)
    (e : FetchError) (he : (p.GetNext resp).2.2 = .error e) :
    (p.GetNext resp).1 = { p with CurrentPage := nextCurrentPage p.options p } := by
  cases resp with
  | transportError => rfl
  | infoError => rfl
  | unmarshalError => rfl
  | payload info =>
    simp only [ListServiceAuthorizationsPaginator.GetNext,
      listServiceAuthorizationsWithPage] at he ⊢
    rcases hc : convertItems info.items with u | s
    · simp [hc]
    · simp only [hc] at he
      rcases hn : applyNextLink info _ with r | p2
      · simp only [hn] at he
        simp at he
      · simp only [hn] at he
        rcases hl : applyLastLink info p2 with r | p3 <;> simp only [hl] at he <;> simp at he

/-! ## Claims -/

/-- Claim C1: the page number emitted by `GetNext` follows the selection
rule: a first-ever fetch with no explicit starting page (`Page <= 0`,
`CurrentPage == 0`) requests page 1; a first-ever fetch with an explicit
starting page requests that page; a fetch on a consumed paginator
requests `CurrentPage + 1`; and after any successful fetch the following
fetch requests the page just fetched plus one. -/
theorem claim_C1 (p : ListServiceAuthorizationsPaginator) (resp : GetResponse) :
    (p.consumed = false → p.options.Page ≤ 0 → p.CurrentPage = 0 →
      (p.GetNext resp).2.1.pageNumber = itoa 1) ∧
    (p.consumed = false → 0 < p.options.Page →
      (p.GetNext resp).2.1.pageNumber = itoa p.options.Page) ∧
    (p.consumed = true →
      (p.GetNext resp).2.1.pageNumber = itoa (p.CurrentPage + 1)) ∧
    (∀ info s, (p.GetNext (.payload info)).2.2 = .ok s →
      ∀ resp2, (((p.GetNext (.payload info)).1).GetNext resp2).2.1.pageNumber
        = itoa ((p.GetNext (.payload info)).1.CurrentPage + 1)) := by
  have hreq : ∀ r : GetResponse, (p.GetNext r).2.1.pageNumber = itoa (nextCurrentPage p.options p) := by
    intro r
    rw [ListServiceAuthorizationsPaginator.GetNext, emittedRequest_spec]
  refine ⟨?_, ?_, ?_, ?_⟩
  · intro h1 h2 h3
    rw [hreq, nextCurrentPage, if_pos ⟨h2, h3⟩]
  · intro h1 h2
    rw [hreq, nextCurrentPage, if_neg (by simp [not_le.mpr h2]), if_pos h1]
  · intro h1
    rw [hreq, nextCurrentPage]
    by_cases hc : p.options.Page ≤ 0 ∧ p.CurrentPage = 0
    · rw [if_pos hc, hc.2]
      norm_num
    · rw [if_neg hc, if_neg (by simp [h1])]
  · intro info s hok resp2
    obtain ⟨hcons, hcur, _⟩ := getNext_ok_shape p info s hok
    set p' := (p.GetNext (.payload info)).1 with hp'
    rw [ListServiceAuthorizationsPaginator.GetNext, emittedRequest_spec]
    show itoa (nextCurrentPage p'.options p') = itoa (p'.CurrentPage + 1)
    rw [nextCurrentPage]
    by_cases hc : p'.options.Page ≤ 0 ∧ p'.CurrentPage = 0
    · rw [if_pos hc, hc.2]
      norm_num
    · rw [if_neg hc, if_neg (by simp [hcons])]

/-- Claim C1 witness: a fresh paginator with no explicit page emits
`page[number]=1`; a fresh one with `Page = 5` emits `5`; a consumed one on
page 1 emits `2`; and after a successful first fetch of page 5 the next
fetch emits `6`. -/
theorem claim_C1_witness :
    ((NewListServiceAuthorizationsPaginator ⟨0, 0⟩).GetNext .transportError).2.1.pageNumber = "1" ∧
    ((NewListServiceAuthorizationsPaginator ⟨0, 5⟩).GetNext .transportError).2.1.pageNumber = "5" ∧
    (({ consumed := true, CurrentPage := 1, NextPage := 2, LastPage := 3, options := ⟨0, 0⟩ }
        : ListServiceAuthorizationsPaginator).GetNext .transportError).2.1.pageNumber = "2" ∧
    ((((NewListServiceAuthorizationsPaginator ⟨0, 5⟩).GetNext
        (.payload { next := "", last := "", items := [] })).1).GetNext
          .transportError).2.1.pageNumber = "6" :=
  ⟨((claim_C1 _ _).1 rfl (by decide) rfl).trans (by decide),
   ((claim_C1 _ _).2.1 rfl (by decide)).trans (by decide),
   ((claim_C1 _ _).2.2.1 rfl).trans (by decide),
   (((claim_C1 (NewListServiceAuthorizationsPaginator ⟨0, 5⟩)
       (.payload { next := "", last := "", items := [] })).2.2.2
       { next := "", last := "", items := [] } [] (by decide) .transportError)).trans (by decide)⟩

/-- Claim C2: `HasNext` is true exactly when no fetch has occurred yet or
`Remaining` is non-zero, and a freshly constructed paginator always has
`HasNext = true`. -/
theorem claim_C2 (p : ListServiceAuthorizationsPaginator) :
    (p.HasNext = true ↔ (p.consumed = false ∨ p.Remaining ≠ 0)) ∧
    (∀ i, (NewListServiceAuthorizationsPaginator i).HasNext = true) := by
  constructor
  · simp [ListServiceAuthorizationsPaginator.HasNext, Bool.not_eq_true']
  · intro i
    simp [ListServiceAuthorizationsPaginator.HasNext, NewListServiceAuthorizationsPaginator]

/-- Claim C2 witness: a consumed paginator with `Remaining = 0` has
`HasNext = false` side (via the iff), and a fresh paginator reports
`HasNext = true`. -/
theorem claim_C2_witness :
    ({ consumed := false, CurrentPage := 7, NextPage := 0, LastPage := 0, options := ⟨0, 0⟩ }
      : ListServiceAuthorizationsPaginator).HasNext = true ∧
    (NewListServiceAuthorizationsPaginator ⟨25, 3⟩).HasNext = true :=
  ⟨(claim_C2 ⟨false, 7, 0, 0, ⟨0, 0⟩⟩).1.mpr (Or.inl rfl),
   (claim_C2 (NewListServiceAuthorizationsPaginator ⟨25, 3⟩)).2 ⟨25, 3⟩⟩

/-- Claim C3: `Remaining` is `0` when `LastPage = 0` and
`LastPage - CurrentPage` otherwise; on a fresh paginator it is `0`. -/
theorem claim_C3 (p : ListServiceAuthorizationsPaginator) :
    (p.LastPage = 0 → p.Remaining = 0) ∧
    (p.LastPage ≠ 0 → p.Remaining = p.LastPage - p.CurrentPage) ∧
    (∀ i, (NewListServiceAuthorizationsPaginator i).Remaining = 0) := by
  refine ⟨?_, ?_, ?_⟩
  · intro h
    simp [ListServiceAuthorizationsPaginator.Remaining, h]
  · intro h
    simp [ListServiceAuthorizationsPaginator.Remaining, h]
  · intro i
    simp [ListServiceAuthorizationsPaginator.Remaining, NewListServiceAuthorizationsPaginator]

/-- Claim C3 witness: both branches of `Remaining` at concrete states, and
a fresh paginator. -/
theorem claim_C3_witness :
    ({ consumed := true, CurrentPage := 2, NextPage := 3, LastPage := 0, options := ⟨0, 0⟩ }
      : ListServiceAuthorizationsPaginator).Remaining = 0 ∧
    ({ consumed := true, CurrentPage := 2, NextPage := 3, LastPage := 9, options := ⟨0, 0⟩ }
      : ListServiceAuthorizationsPaginator).Remaining = 9 - 2 ∧
    (NewListServiceAuthorizationsPaginator ⟨0, 0⟩).Remaining = 0 :=
  ⟨(claim_C3 ⟨true, 2, 3, 0, ⟨0, 0⟩⟩).1 rfl,
   (claim_C3 ⟨true, 2, 3, 9, ⟨0, 0⟩⟩).2.1 (by decide),
   (claim_C3 (NewListServiceAuthorizationsPaginator ⟨0, 0⟩)).2.2 ⟨0, 0⟩⟩

/-- Claim C6: `PerPage <= 0` makes the emitted `page[size]` `"100"`; a
positive `PerPage` is emitted as its own decimal string. -/
theorem claim_C6 (p : ListServiceAuthorizationsPaginator) (resp : GetResponse) :
    (p.options.PerPage ≤ 0 → (p.GetNext resp).2.1.pageSize = "100") ∧
    (0 < p.options.PerPage → (p.GetNext resp).2.1.pageSize = itoa p.options.PerPage) := by
  have hreq : (p.GetNext resp).2.1.pageSize = itoa (effectivePerPage p.options) := by
    rw [ListServiceAuthorizationsPaginator.GetNext, emittedRequest_spec]
  constructor
  · intro h
    rw [hreq, effectivePerPage, if_pos h]
    rfl
  · intro h
    rw [hreq, effectivePerPage, if_neg (not_le.mpr h)]

/-- Claim C6 witness: `PerPage = 0` emits `"100"`, `PerPage = 25` emits
`"25"`. -/
theorem claim_C6_witness :
    ((NewListServiceAuthorizationsPaginator ⟨0, 0⟩).GetNext .transportError).2.1.pageSize = "100" ∧
    ((NewListServiceAuthorizationsPaginator ⟨25, 0⟩).GetNext .transportError).2.1.pageSize = "25" :=
  ⟨(claim_C6 _ _).1 (by decide),
   ((claim_C6 (NewListServiceAuthorizationsPaginator ⟨25, 0⟩) .transportError).2 (by decide)).trans
     (by decide)⟩

/-- Paginator state for the C4 counterexample: already consumed, with a
previously stored `NextPage = 3`. -/
def pC4 : ListServiceAuthorizationsPaginator := ⟨true, 1, 3, 5, ⟨0, 0⟩⟩

/-- Response for the C4 counterexample: a well-formed URL whose
`page[number]` value is the non-numeric `abc`. -/
def rC4 : GetResponse := .payload ⟨"http://x/?page[number]=abc", "", []⟩

/-- Claim C4 counterexample: on a non-numeric `page[number]` in the `next`
link, no error is raised, but `NextPage` does not remain at its previous
value `3`: the swallowed `strconv.Atoi` writes its error-case value `0`. -/
theorem claim_C4_counterexample :
    (pC4.GetNext rC4).2.2 = .ok [] ∧
    (pC4.GetNext rC4).1.NextPage = 0 ∧
    (pC4.GetNext rC4).1.NextPage ≠ pC4.NextPage := by decide

/-- Claim C4 as amended: on a non-empty `next` link whose `page[number]`
value is non-numeric, no error is raised, and `NextPage` is set to `0`
(the value half of the swallowed `strconv.Atoi` result), overwriting the
prior value rather than retaining it (they agree only when the prior
value was `0`); likewise for the `last` link and `LastPage`. -/
theorem claim_C4_amended (p : ListServiceAuthorizationsPaginator) (info : ResponseInfo)
    (s : List Nat) (hitems : convertItems info.items = .ok s) :
    (∀ q v vs, info.next ≠ "" → urlParse info.next.toList = some q →
      queryValues q "page[number]".toList = v :: vs → goAtoi v = (0, false) →
      info.last = "" →
      (p.GetNext (.payload info)).2.2 = .ok s ∧ (p.GetNext (.payload info)).1.NextPage = 0) ∧
    (∀ q v vs, info.last ≠ "" → urlParse info.last.toList = some q →
      queryValues q "page[number]".toList = v :: vs → goAtoi v = (0, false) →
      info.next = "" →
      (p.GetNext (.payload info)).2.2 = .ok s ∧ (p.GetNext (.payload info)).1.LastPage = 0) := by
  constructor
  · intro q v vs hnext hq hv hatoi hlast
    have hlp : linkPageNumber info.next = Except.ok 0 := by
      simp only [linkPageNumber, hq, hv, hatoi]
    simp only [ListServiceAuthorizationsPaginator.GetNext, listServiceAuthorizationsWithPage,
      hitems, applyNextLink, applyLastLink, if_neg hnext, if_pos hlast, hlp, Except.map]
    exact ⟨trivial, trivial⟩
  · intro q v vs hlast hq hv hatoi hnext
    have hlp : linkPageNumber info.last = Except.ok 0 := by
      simp only [linkPageNumber, hq, hv, hatoi]
    simp only [ListServiceAuthorizationsPaginator.GetNext, listServiceAuthorizationsWithPage,
      hitems, applyNextLink, applyLastLink, if_pos hnext, if_neg hlast, hlp, Except.map]
    exact ⟨trivial, trivial⟩

/-- Claim C4 amended witness: the malformed-`next` response of the
counterexample, instantiated in the amended theorem. -/
theorem claim_C4_amended_witness :
    (pC4.GetNext rC4).2.2 = .ok [] ∧ (pC4.GetNext rC4).1.NextPage = 0 :=
  (claim_C4_amended pC4 ⟨"http://x/?page[number]=abc", "", []⟩ [] rfl).1
    "page[number]=abc".toList "abc".toList [] (by decide) rfl rfl rfl rfl

/-- Paginator for the C5 counterexample: `PerPage = 250`. -/
def pC5 : ListServiceAuthorizationsPaginator := NewListServiceAuthorizationsPaginator ⟨250, 0⟩

/-- Claim C5 counterexample: with `PerPage = 250` the emitted `page[size]`
is `"250"`: read back as a number it exceeds `100`, so the emitted page
size is not capped at 100. -/
theorem claim_C5_counterexample :
    (pC5.GetNext .transportError).2.1.pageSize = "250" ∧
    100 < (goAtoi ((pC5.GetNext .transportError).2.1.pageSize).toList).1 := by decide

/-- Claim C5 as amended: `maxPerPage = 100` is only the default for
`PerPage <= 0`; a `PerPage` greater than 100 is emitted verbatim as
`page[size]`, with no cap applied. -/
theorem claim_C5_amended (p : ListServiceAuthorizationsPaginator) (resp : GetResponse)
    (h : 100 < p.options.PerPage) :
    (p.GetNext resp).2.1.pageSize = itoa p.options.PerPage := by
  have hreq : (p.GetNext resp).2.1.pageSize = itoa (effectivePerPage p.options) := by
    rw [ListServiceAuthorizationsPaginator.GetNext, emittedRequest_spec]
  rw [hreq, effectivePerPage, if_neg (by omega)]

/-- Claim C5 amended witness: `PerPage = 250` emits `page[size] = "250"`. -/
theorem claim_C5_amended_witness :
    (pC5.GetNext .transportError).2.1.pageSize = "250" :=
  (claim_C5_amended pC5 .transportError (by decide)).trans (by decide)

/-- Claim C7: after one successful fetch on a fresh paginator whose
response's `last` link carries the page number just fetched, `Remaining`
is `0` and `HasNext` is `false`. -/
theorem claim_C7 (i : ListServiceAuthorizationsInput) (info : ResponseInfo) (s : List Nat)
    (hok : ((NewListServiceAuthorizationsPaginator i).GetNext (.payload info)).2.2 = .ok s)
    (hlast : info.last ≠ "")
    (hparse : linkPageNumber info.last =
      .ok (((NewListServiceAuthorizationsPaginator i).GetNext (.payload info)).1.CurrentPage)) :
    ((NewListServiceAuthorizationsPaginator i).GetNext (.payload info)).1.Remaining = 0 ∧
    ((NewListServiceAuthorizationsPaginator i).GetNext (.payload info)).1.HasNext = false := by
  obtain ⟨hcons, hcur, hlastf⟩ := getNext_ok_shape (NewListServiceAuthorizationsPaginator i) info s hok
  have hLP := hlastf hlast _ hparse
  have hrem : ((NewListServiceAuthorizationsPaginator i).GetNext (.payload info)).1.Remaining = 0 := by
    rw [ListServiceAuthorizationsPaginator.Remaining, hLP]
    split <;> simp
  refine ⟨hrem, ?_⟩
  rw [ListServiceAuthorizationsPaginator.HasNext, hcons, hrem]
  rfl

/-- Claim C7 witness: a first fetch of page 1 whose response's `last` link
carries `page[number]=1`. -/
theorem claim_C7_witness :
    ((NewListServiceAuthorizationsPaginator ⟨0, 0⟩).GetNext
        (.payload ⟨"", "http://x/?page[number]=1", []⟩)).1.Remaining = 0 ∧
    ((NewListServiceAuthorizationsPaginator ⟨0, 0⟩).GetNext
        (.payload ⟨"", "http://x/?page[number]=1", []⟩)).1.HasNext = false :=
  claim_C7 ⟨0, 0⟩ ⟨"", "http://x/?page[number]=1", []⟩ [] rfl (by decide) rfl

/-- Whether the link-parse step of lines 274–283 panics on this link: the
modelled `url.Parse` fails (nil `*URL` dereference follows) or the parsed
query has no `page[number]` value (`[0]` on an empty slice follows). -/
def linkPanics (l : String) : Bool :=
  match urlParse l.toList with
  | none => true
  | some q => (queryValues q "page[number]".toList).isEmpty

/-- A link on which `linkPanics` holds makes `linkPageNumber` abort with a
panic rather than produce a value. -/
theorem linkPanics_error (l : String) (h : linkPanics l = true) :
    ∃ r, linkPageNumber l = Except.error r := by
  rcases hu : urlParse l.toList with _ | q
  · exact ⟨.nilDeref, by simp only [linkPageNumber, hu]⟩
  · simp only [linkPanics, hu] at h
    rcases hqv : queryValues q "page[number]".toList with _ | ⟨v, vs⟩
    · exact ⟨.indexOutOfRange, by simp only [linkPageNumber, hu, hqv]⟩
    · rw [hqv] at h
      simp at h

/-- Claim C8: when the decoded payload reaches the link-parse step and the
`next` (or `last`) link is non-empty but either fails URL parsing or has
no `page[number]` query value, `GetNext` neither returns items nor an
error value: it ends in a runtime panic. -/
theorem claim_C8 (p : ListServiceAuthorizationsPaginator) (info : ResponseInfo) (s : List Nat)
    (hitems : convertItems info.items = .ok s)
    (hbad : (info.next ≠ "" ∧ linkPanics info.next = true) ∨
            (info.last ≠ "" ∧ linkPanics info.last = true)) :
    (∃ r, (p.GetNext (.payload info)).2.2 = .panic r) ∧
    (∀ e, (p.GetNext (.payload info)).2.2 ≠ .error e) ∧
    (∀ l, (p.GetNext (.payload info)).2.2 ≠ .ok l) := by
  have hmain : ∃ r, (p.GetNext (.payload info)).2.2 = .panic r := by
    simp only [ListServiceAuthorizationsPaginator.GetNext, listServiceAuthorizationsWithPage,
      hitems]
    rcases hbad with ⟨hne, hpan⟩ | ⟨hne, hpan⟩
    · obtain ⟨r, hr⟩ := linkPanics_error _ hpan
      have han : applyNextLink info
          { p with CurrentPage := nextCurrentPage p.options p } = .error r := by
        rw [applyNextLink, if_neg hne, hr]
        rfl
      simp only [han]
      exact ⟨r, rfl⟩
    · rcases han : applyNextLink info
          { p with CurrentPage := nextCurrentPage p.options p } with r | p2
      · simp only [han]
        exact ⟨r, rfl⟩
      · obtain ⟨r, hr⟩ := linkPanics_error _ hpan
        have hal : applyLastLink info p2 = .error r := by
          rw [applyLastLink, if_neg hne, hr]
          rfl
        simp only [han, hal]
        exact ⟨r, rfl⟩
  obtain ⟨r, hr⟩ := hmain
  refine ⟨⟨r, hr⟩, ?_, ?_⟩ <;> intro x <;> rw [hr] <;> simp

/-- Claim C8 witness: a `next` link whose query has no `page[number]`
key at all ends the call in a panic. -/
theorem claim_C8_witness :
    ∃ r, ((NewListServiceAuthorizationsPaginator ⟨0, 0⟩).GetNext
      (.payload ⟨"http://x/list", "", []⟩)).2.2 = .panic r :=
  (claim_C8 (NewListServiceAuthorizationsPaginator ⟨0, 0⟩) ⟨"http://x/list", "", []⟩ []
    rfl (Or.inl ⟨by decide, by decide⟩)).1

/-- Paginator for the C9 counterexample: fresh, with the negative explicit
page `Page = -1` (which still satisfies `Page <= 0`). -/
def pC9 : ListServiceAuthorizationsPaginator := NewListServiceAuthorizationsPaginator ⟨0, -1⟩

/-- Claim C9 counterexample: after a failed first fetch with `Page = -1`
(a value satisfying the claim's `Page <= 0` hypothesis) the paginator is
left at `CurrentPage = 1`, unconsumed — but the retry emits
`page[number] = "-1"`, the input's `Page` field, not the claimed `"0"`. -/
theorem claim_C9_counterexample :
    (pC9.GetNext .transportError).1.CurrentPage = 1 ∧
    (pC9.GetNext .transportError).1.consumed = false ∧
    ((pC9.GetNext .transportError).1.GetNext .transportError).2.1.pageNumber = "-1" ∧
    ((pC9.GetNext .transportError).1.GetNext .transportError).2.1.pageNumber ≠ "0" := by decide

/-- Claim C9 as amended: `GetNext` is not atomic on error: a failed first
fetch with `Page <= 0` leaves `CurrentPage = 1` with `consumed` still
false, and a retry then requests `page[number]` equal to the input's
`Page` field rendered in decimal — which is `"0"` exactly when `Page`
is `0` (the zero default), not for every `Page <= 0`. -/
theorem claim_C9_amended (i : ListServiceAuthorizationsInput) (resp : GetResponse)
    (hpage : i.Page ≤ 0)
    (hfail : ∃ e, ((NewListServiceAuthorizationsPaginator i).GetNext resp).2.2 = .error e) :
    ((NewListServiceAuthorizationsPaginator i).GetNext resp).1.CurrentPage = 1 ∧
    ((NewListServiceAuthorizationsPaginator i).GetNext resp).1.consumed = false ∧
    ∀ resp2,
      ((((NewListServiceAuthorizationsPaginator i).GetNext resp).1).GetNext resp2).2.1.pageNumber
        = itoa i.Page := by
  obtain ⟨e, he⟩ := hfail
  have hstate0 := getNext_error_state (NewListServiceAuthorizationsPaginator i) resp e he
  have hstate : ((NewListServiceAuthorizationsPaginator i).GetNext resp).1
      = ⟨false, 1, 0, 0, i⟩ := by
    rw [hstate0]
    have h1 : nextCurrentPage (NewListServiceAuthorizationsPaginator i).options
        (NewListServiceAuthorizationsPaginator i) = 1 := by
      rw [nextCurrentPage, if_pos ⟨hpage, rfl⟩]
    rw [h1]
    rfl
  refine ⟨by rw [hstate], by rw [hstate], ?_⟩
  intro resp2
  rw [hstate]
  have hreq : ((⟨false, 1, 0, 0, i⟩ : ListServiceAuthorizationsPaginator).GetNext resp2).2.1
      = { pageSize := itoa (effectivePerPage i),
          pageNumber := itoa (nextCurrentPage i ⟨false, 1, 0, 0, i⟩) } := by
    rw [ListServiceAuthorizationsPaginator.GetNext, emittedRequest_spec]
  rw [hreq]
  show itoa (nextCurrentPage i ⟨false, 1, 0, 0, i⟩) = itoa i.Page
  rw [nextCurrentPage, if_neg (by simp), if_pos rfl]

/-- Claim C9 amended witness: `Page = 0`, transport failure on the first
call, retry emits `page[number] = "0"`. -/
theorem claim_C9_amended_witness :
    ((NewListServiceAuthorizationsPaginator ⟨0, 0⟩).GetNext .transportError).1.CurrentPage = 1 ∧
    (((NewListServiceAuthorizationsPaginator ⟨0, 0⟩).GetNext
        .transportError).1.GetNext .transportError).2.1.pageNumber = "0" :=
  ⟨(claim_C9_amended ⟨0, 0⟩ .transportError (by decide) ⟨.transport, by decide⟩).1,
   ((claim_C9_amended ⟨0, 0⟩ .transportError (by decide)
      ⟨.transport, by decide⟩).2.2 .transportError).trans (by decide)⟩

/-- The append loop only adds to the front accumulator: its result is the
incoming accumulator followed by what it would produce from scratch, and
its error flag does not depend on the accumulator. -/
theorem appendRules_acc (a : List Nat) (items : List (Option Nat)) :
    appendRules a items = (a ++ (appendRules [] items).1, (appendRules [] items).2) := by
  induction items generalizing a with
  | nil => simp [appendRules]
  | cons x rest ih =>
    cases x with
    | none => simp [appendRules]
    | some y =>
      show appendRules (a ++ [y]) rest = _
      rw [ih (a ++ [y])]
      have hr : appendRules [] (some y :: rest) = appendRules ([] ++ [y]) rest := rfl
      rw [hr, ih ([] ++ [y])]
      simp

/-- A page whose elements all type-assert successfully appends exactly
those elements and reports no error. -/
theorem appendRules_map_some (a : List Nat) (items : List Nat) :
    appendRules a (items.map some) = (a ++ items, false) := by
  induction items generalizing a with
  | nil => simp [appendRules]
  | cons x rest ih =>
    show appendRules (a ++ [x]) (rest.map some) = _
    rw [ih (a ++ [x])]
    simp

/-- The page fetch loop likewise only appends: starting it from
accumulator `a` yields `a` followed by what it accumulates from scratch,
with the same error result. -/
theorem fetchWAFRuleStatusesPage_acc (rs : List WAFResponse) (a : List Nat) :
    fetchWAFRuleStatusesPage rs a
      = (a ++ (fetchWAFRuleStatusesPage rs []).1, (fetchWAFRuleStatusesPage rs []).2) := by
  induction rs generalizing a with
  | nil => simp [fetchWAFRuleStatusesPage]
  | cons r rest ih =>
    cases r with
    | transportError => simp [fetchWAFRuleStatusesPage]
    | pagesError => simp [fetchWAFRuleStatusesPage]
    | unmarshalError => simp [fetchWAFRuleStatusesPage]
    | payload items next =>
      rcases hap : appendRules [] items with ⟨A, b⟩
      have hacc : appendRules a items = (a ++ A, b) := by
        rw [appendRules_acc a items, hap]
      simp only [fetchWAFRuleStatusesPage, hacc, hap]
      cases b with
      | true => simp
      | false =>
        by_cases hn : next = ""
        · simp [hn]
        · simp only [Bool.false_eq_true, if_false, if_neg hn]
          rw [ih (a ++ A), ih A]
          simp

/-- Claim C10: with valid identifiers, once the first page decodes and
carries a non-empty `next` link, `GetWAFRuleStatuses` returns a nil error
whatever happens on the later pages — the recursive call's error is
discarded — and its rules are the first page's rules followed by whatever
the later pages accumulated before any failure; in particular a transport
error on the second page yields exactly the first page's rules with a nil
error. -/
theorem claim_C10 (i : GetWAFRuleStatusesInput) (items : List Nat) (next : String)
    (rest : List WAFResponse) (hs : i.Service ≠ "") (hw : i.WAF ≠ "") (hn : next ≠ "") :
    (GetWAFRuleStatuses i (.payload (items.map some) next :: rest)).2 = none ∧
    (GetWAFRuleStatuses i (.payload (items.map some) next :: rest)).1
      = items ++ (fetchWAFRuleStatusesPage rest []).1 ∧
    ∀ rest2, rest = .transportError :: rest2 →
      (GetWAFRuleStatuses i (.payload (items.map some) next :: rest)).1 = items := by
  have hmain : fetchWAFRuleStatusesPage (.payload (items.map some) next :: rest) []
      = (items ++ (fetchWAFRuleStatusesPage rest []).1, none) := by
    simp only [fetchWAFRuleStatusesPage, appendRules_map_some, List.nil_append,
      Bool.false_eq_true, if_false, if_neg hn]
    rw [fetchWAFRuleStatusesPage_acc rest items]
  have hg : GetWAFRuleStatuses i (.payload (items.map some) next :: rest)
      = fetchWAFRuleStatusesPage (.payload (items.map some) next :: rest) [] := by
    rw [GetWAFRuleStatuses, if_neg hs, if_neg hw]
  refine ⟨by rw [hg, hmain], by rw [hg, hmain], ?_⟩
  intro rest2 hr
  subst hr
  rw [hg, hmain]
  simp [fetchWAFRuleStatusesPage]

/-- Claim C10 witness: first page with rules 1 and 2 and a `next` link,
transport failure on the second page: nil error, rules `[1, 2]`. -/
theorem claim_C10_witness :
    (GetWAFRuleStatuses ⟨"s", "w"⟩ [.payload [some 1, some 2] "page2", .transportError]).2 = none ∧
    (GetWAFRuleStatuses ⟨"s", "w"⟩ [.payload [some 1, some 2] "page2", .transportError]).1
      = [1, 2] :=
  ⟨(claim_C10 ⟨"s", "w"⟩ [1, 2] "page2" [.transportError]
      (by decide) (by decide) (by decide)).1,
   (claim_C10 ⟨"s", "w"⟩ [1, 2] "page2" [.transportError]
      (by decide) (by decide) (by decide)).2.2 [] rfl⟩

end GoFastly
